import Mathlib

/-!
Shallow embedding of `src/server.py` (CamperRent REST API server) and proofs
about its record-store endpoints and thumbnail pipeline.

The Python source is embedded as executable Lean definitions:
* JSON records are association lists `List (String × String)`; `dict.get`
  becomes `List.lookup`.
* The on-disk thumbnail cache is an association list from file path to bytes.
* External library calls (`hashlib.md5`, `requests.get`, `PIL.Image.open`,
  the JPEG encoder) are parameters of the pipeline model, since the claims
  depend only on how `generate_thumbnail` composes them.
* Machine integers are `ℕ`/`ℤ`; Python `int()` of a query string is modelled
  by `Option (Option ℤ)` (absent / present-but-unparseable / parsed value).
-/

set_option maxRecDepth 100000

/-! ### JSON records and the database (src/server.py lines 20-37) -/

/-- A JSON object, modelled as an association list in insertion order
(Python `dict`).  The claims only inspect string-valued fields. -/
abbrev Rec := List (String × String)

/-- `d.get(k)` on a Python dict: `some v` if present, else `none`. -/
def dictGet (r : Rec) (k : String) : Option String :=
  r.lookup k

/-- `d.get(k, default)` on a Python dict. -/
def dictGetD (r : Rec) (k : String) (d : String) : String :=
  (r.lookup k).getD d

/-- `k in d` on a Python dict. -/
def dictHas (r : Rec) (k : String) : Bool :=
  (r.lookup k).isSome

/-- `d[k] = v` on a Python dict when `k` is not yet present: the key is
appended in insertion order. -/
def dictAdd (r : Rec) (k v : String) : Rec :=
  r ++ [(k, v)]

/-- The JSON database document `datenbank.json` with its three collections
(`read_db`, lines 25-30). -/
structure Db where
  users : List Rec
  vehicles : List Rec
  bookings : List Rec

/-! ### Query-parameter truthiness

`request.args.get(name)` returns `None` when the parameter is absent and the
(possibly empty) string otherwise; `if param:` is false for both `None` and
the empty string. -/

/-- Python truthiness of an optional string query parameter. -/
def truthy : Option String → Bool
  | none => false
  | some s => !(s == "")

/-! ### GET /users, /vehicles, /bookings (lines 50-55, 85-90, 138-149) -/

/-- `GET /users?email=...` (lines 50-55): if the `email` parameter is truthy,
filter by `u.get('email') == email`, else return the whole collection. -/
def usersGet (db : Db) (email : Option String) : List Rec :=
  if truthy email then
    db.users.filter (fun u => dictGet u "email" == email)
  else
    db.users

/-- `GET /vehicles?provider_id=...` (lines 85-90). -/
def vehiclesGet (db : Db) (provider_id : Option String) : List Rec :=
  if truthy provider_id then
    db.vehicles.filter (fun v => dictGet v "provider_id" == provider_id)
  else
    db.vehicles

/-- `GET /bookings?user_id=...&vehicle_id=...` (lines 138-149): two
successive truthiness-guarded filters. -/
def bookingsGet (db : Db) (user_id vehicle_id : Option String) : List Rec :=
  let result := db.bookings
  let result := if truthy user_id then
      result.filter (fun b => dictGet b "user_id" == user_id)
    else result
  let result := if truthy vehicle_id then
      result.filter (fun b => dictGet b "vehicle_id" == vehicle_id)
    else result
  result

/-! ### POST /users and POST /vehicles (lines 57-61, 92-96)

Both append the request body unchanged and return it with status 201;
no id is generated. -/

/-- `POST /users` (lines 57-61). Returns (new database, response body,
HTTP status). -/
def usersPost (db : Db) (body : Rec) : Db × Rec × ℕ :=
  ({ db with users := db.users ++ [body] }, body, 201)

/-- `POST /vehicles` (lines 92-96). -/
def vehiclesPost (db : Db) (body : Rec) : Db × Rec × ℕ :=
  ({ db with vehicles := db.vehicles ++ [body] }, body, 201)

/-! ### POST /bookings and the id generator (lines 151-166)

When the body has no `id`, the code collects `existing_ids` (with `''` for
bookings lacking an id), then runs `counter = 1; while f'b{counter}' in
existing_ids: counter += 1` and assigns `f'b{counter}'`. -/

/-- Decimal digit characters of `n`, most significant first, computed with
explicit fuel so that it is structural (and kernel-reducible).  Any
`fuel > n` yields the digit list (`natDigitsAux_congr`). -/
def natDigitsAux : ℕ → ℕ → List Char
  | 0, _ => []
  | fuel + 1, n =>
    if n < 10 then [Nat.digitChar n]
    else natDigitsAux fuel (n / 10) ++ [Nat.digitChar (n % 10)]

/-- Decimal digit characters of `n`, most significant first; the character
list underlying Python `str(n)` / `f'{n}'` for a natural number. -/
def natDigits (n : ℕ) : List Char :=
  natDigitsAux (n + 1) n

/-- The booking id `f'b{counter}'`. -/
def bId (counter : ℕ) : String :=
  ⟨'b' :: natDigits counter⟩

/-- `existing_ids = [b.get('id', '') for b in db['bookings']]` (line 158). -/
def existingIds (bookings : List Rec) : List String :=
  bookings.map (fun b => dictGetD b "id" "")

/-- The `while f'b{counter}' in existing_ids: counter += 1` loop
(lines 159-161), with explicit fuel.  `findCounter ids fuel c` returns the
first `m ≥ c` (scanning at most `fuel` candidates) with `bId m ∉ ids`. -/
def findCounter (ids : List String) : ℕ → ℕ → ℕ
  | 0, c => c
  | fuel + 1, c => if bId c ∈ ids then findCounter ids fuel (c + 1) else c

/-- The counter the Python while loop terminates with, starting at 1.  Fuel
`ids.length + 1` provably suffices (`findCounter_free`), so this equals the
unbounded loop's result. -/
def nextBookingNum (ids : List String) : ℕ :=
  findCounter ids (ids.length + 1) 1

/-- `POST /bookings` (lines 151-166): assign `f'b{counter}'` when the body
lacks an `id`, then append and return the body with status 201. -/
def bookingsPost (db : Db) (body : Rec) : Db × Rec × ℕ :=
  let newBooking :=
    if dictHas body "id" then body
    else dictAdd body "id" (bId (nextBookingNum (existingIds db.bookings)))
  ({ db with bookings := db.bookings ++ [newBooking] }, newBooking, 201)

/-! ### The thumbnail pipeline (lines 190-276)

`generate_thumbnail` composes external libraries; the embedding keeps the
handler's own control flow exact and treats the library calls as parameters:

* `md5hex` — `hashlib.md5(...).hexdigest()` (the claims need only that the
  digest is a deterministic function of its input string);
* `fetch` — `requests.get(url, timeout=10)`: a timeout, another
  `RequestException` (with its `str(e)` detail), or a response with a status
  code and body bytes;
* `decode` — `PIL.Image.open`: `none` when the bytes are not a decodable
  image, otherwise the decoded image's (width, height);
* `encode` — the composite decode→normalize→resize→JPEG-encode output bytes,
  a deterministic function of the fetched bytes and the target width.

Two input-driven failures exist after a successful decode:
* a zero target height makes `img.resize((new_width, 0), LANCZOS)`
  (line 263) raise `ValueError("height and width must be > 0")` in Pillow's
  resampler — *before* `img.save` is reached, so no cache file is touched;
* a target height above libjpeg's `JPEG_MAX_DIMENSION` (65500 pixels) passes
  `resize` but fails inside `img.save(cache_path, 'JPEG', ...)` (line 268):
  `Image.save` opens and truncates the cache file before the JPEG encoder
  rejects the oversized dimensions, so a 0-byte entry remains at the cache
  path.  The model reproduces this: that failing save writes `[]` at the
  key.  (The target width is the validated 50..2000, never 0 nor above
  65500.) -/

/-! #### IEEE-754 double-precision arithmetic

Lines 256-258 compute `aspect_ratio = img.height / img.width` and
`new_height = int(width * aspect_ratio)` in Python floats, i.e. IEEE-754
binary64: one round-to-nearest (ties-to-even) of the exact quotient `H/W`,
then one round-to-nearest of the exact product `width * fl(H/W)` (`width`
≤ 2000 is exactly representable), then truncation toward zero.  Every
binary64 value is a rational, so the computation is embedded exactly over
`ℚ`.  The rounding `rn` below is round-to-nearest, ties-to-even, with
unbounded exponent range: all values in this program lie far inside the
binary64 normal range (between roughly `2^-31` and `2^43`), so neither
subnormals nor overflow can occur and the unbounded-exponent model agrees
with binary64 exactly. -/

/-- `⌊log₂ n⌋` via halving, with explicit fuel so that it is structural and
kernel-reducible; `fuel ≥ n` suffices (`log2Aux_congr`). -/
def log2Aux : ℕ → ℕ → ℕ
  | 0, _ => 0
  | fuel + 1, n => if n < 2 then 0 else log2Aux fuel (n / 2) + 1

/-- `⌊log₂ n⌋` (0 for n = 0). -/
def natLog2 (n : ℕ) : ℕ := log2Aux n n

/-- The binade exponent of a positive rational: the unique `e` with
`2^e ≤ q < 2^(e+1)` (`qExp_spec`), computed from the bit lengths of the
numerator and denominator. -/
def qExp (q : ℚ) : ℤ :=
  let a := q.num.toNat
  let b := q.den
  let la := natLog2 a
  let lb := natLog2 b
  if b * 2 ^ la ≤ a * 2 ^ lb then (la : ℤ) - lb else (la : ℤ) - lb - 1

/-- Round a rational to the nearest integer, ties to even (the IEEE-754
default rounding applied to a scaled significand). -/
def rnInt (x : ℚ) : ℤ :=
  if x - ⌊x⌋ < 1 / 2 then ⌊x⌋
  else if 1 / 2 < x - ⌊x⌋ then ⌊x⌋ + 1
  else if ⌊x⌋ % 2 = 0 then ⌊x⌋ else ⌊x⌋ + 1

/-- Round a rational to the nearest binary64 value (round-to-nearest,
ties-to-even, unbounded exponent; see the section comment): the significand
`q·2^(52-e)` ∈ [2^52, 2^53) is rounded to an integer and rescaled.
Non-positive inputs (which do not occur in this program) map to 0. -/
def rn (q : ℚ) : ℚ :=
  if 0 < q then (rnInt (q * 2 ^ (52 - qExp q)) : ℚ) * 2 ^ (qExp q - 52) else 0

/-- Target height (lines 256-258): `int(width * (img.height / img.width))`
with both float operations rounded exactly as binary64 and `int()`
truncating toward zero (= floor, as the value is non-negative). -/
def newHeight (targetWidth imgWidth imgHeight : ℕ) : ℕ :=
  (⌊rn ((targetWidth : ℚ) * rn ((imgHeight : ℚ) / (imgWidth : ℚ)))⌋).toNat

/-- Outcome of `requests.get(image_url, timeout=10)` (line 235). -/
inductive FetchResult where
  | timeout
  | reqError (detail : String)
  | ok (status : ℕ) (body : List ℕ)
deriving DecidableEq

/-- An HTTP response of the handler: a JSON error object
`jsonify(error=...)` with a status code, or `send_file` bytes with
status 200 and content type `image/jpeg`. -/
inductive Response where
  | json (status : ℕ) (error : String)
  | file (bytes : List ℕ)
deriving DecidableEq

/-- The `thumbnail_cache` directory: an association list from file path to
file bytes.  `os.path.exists` = `lookup`  is `some`; writing replaces any
previous entry. -/
abbrev Cache := List (String × List ℕ)

/-- `os.path.exists(path)` + reading the file: the bytes at `path`. -/
def cacheLookup (c : Cache) (path : String) : Option (List ℕ) :=
  c.lookup path

/-- (Over)write the file at `path`. -/
def cacheWrite (c : Cache) (path : String) (bytes : List ℕ) : Cache :=
  (path, bytes) :: c.filter (fun e => !(e.1 == path))

/-- The external collaborators of `generate_thumbnail` (see the section
comment above). -/
structure ThumbEnv where
  md5hex : String → String
  fetch : String → FetchResult
  decode : List ℕ → Option (ℕ × ℕ)
  encode : List ℕ → ℕ → List ℕ

/-- Result of one request: the HTTP response, the cache directory afterwards,
and whether the remote fetcher was invoked. -/
structure ThumbResult where
  resp : Response
  cache : Cache
  fetched : Bool
deriving DecidableEq

/-- `cache_key = hashlib.md5(f"{image_url}_{width}".encode()).hexdigest()`
(line 225). -/
def cacheKeyOf (env : ThumbEnv) (url : String) (w : ℤ) : String :=
  env.md5hex (url ++ "_" ++ toString w)

/-- `cache_path = os.path.join(CACHE_DIR, f"{cache_key}.jpg")` (line 226). -/
def thumbPath (env : ThumbEnv) (url : String) (w : ℤ) : String :=
  "thumbnail_cache/" ++ cacheKeyOf env url w ++ ".jpg"

/-- `str(e)` of `PIL.UnidentifiedImageError` from `Image.open` on
undecodable bytes (modelled without the file-object repr suffix). -/
def decodeFailMsg : String := "cannot identify image file"

/-- `str(e)` of the `ValueError` raised by Pillow's resampler when a target
dimension is zero (`img.resize((w, 0), LANCZOS)`, line 263). -/
def resizeZeroMsg : String := "height and width must be > 0"

/-- `str(e)` of the error surfaced by `img.save` when libjpeg rejects a
dimension above `JPEG_MAX_DIMENSION` = 65500 (modelled text; the exact
wording of the surfaced encoder error is not load-bearing — only that the
exception is raised after the output file was opened). -/
def jpegDimensionMsg : String := "encoder error -2 when writing image file"

/-- `str(e)` of the `ZeroDivisionError` from `img.height / img.width` on a
zero-width image (unreachable for PIL-decoded images; kept for totality). -/
def divZeroMsg : String := "division by zero"

/-- Lines 253-269 for a decoded image of size (`iw`, `iht`): compute the
target height, `img.resize` and `img.save(cache_path, 'JPEG', ...)`.  A zero
source width raises `ZeroDivisionError` at line 256 (no file touched); a
zero target height makes `resize` raise at line 263 (no file touched); a
target height above 65500 passes `resize` but fails inside `save` after the
cache file was created and truncated, leaving a 0-byte entry; otherwise the
encoded bytes are written and served. -/
def resizeAndSave (env : ThumbEnv) (cache : Cache) (url : String) (w : ℤ)
    (body : List ℕ) (iw iht : ℕ) : ThumbResult :=
  if iw = 0 then
    ⟨.json 500 ("Image processing failed: " ++ divZeroMsg), cache, true⟩
  else if newHeight w.toNat iw iht = 0 then
    ⟨.json 500 ("Image processing failed: " ++ resizeZeroMsg), cache, true⟩
  else if 65500 < newHeight w.toNat iw iht then
    ⟨.json 500 ("Image processing failed: " ++ jpegDimensionMsg),
      cacheWrite cache (thumbPath env url w) [], true⟩
  else
    ⟨.file (env.encode body w.toNat),
      cacheWrite cache (thumbPath env url w) (env.encode body w.toNat), true⟩

/-- `img = Image.open(BytesIO(response.content))` (line 239) and onwards:
failure to decode becomes 500 `Image processing failed: <detail>` through the
handler's generic `except`. -/
def processBody (env : ThumbEnv) (cache : Cache) (url : String) (w : ℤ)
    (body : List ℕ) : ThumbResult :=
  match env.decode body with
  | none => ⟨.json 500 ("Image processing failed: " ++ decodeFailMsg), cache, true⟩
  | some (iw, iht) => resizeAndSave env cache url w body iw iht

/-- Cache miss path (lines 233-269): fetch, status check, decode, resize and
save.  The two `except` clauses at lines 271-274 map a timeout to 504 and any
other `requests` failure to 500 `Failed to fetch image: <detail>`; all other
exceptions reach line 275 and become 500 `Image processing failed: <detail>`. -/
def fetchAndProcess (env : ThumbEnv) (cache : Cache) (url : String) (w : ℤ) :
    ThumbResult :=
  match env.fetch url with
  | .timeout => ⟨.json 504 "Request timeout while fetching image", cache, true⟩
  | .reqError d => ⟨.json 500 ("Failed to fetch image: " ++ d), cache, true⟩
  | .ok status body =>
    if status ≠ 200 then ⟨.json 404 "Failed to fetch image", cache, true⟩
    else processBody env cache url w body

/-- Lines 222-269: cache probe, then the miss path. -/
def thumbPipeline (env : ThumbEnv) (cache : Cache) (url : String) (w : ℤ) :
    ThumbResult :=
  match cacheLookup cache (thumbPath env url w) with
  | some bs => ⟨.file bs, cache, false⟩
  | none => fetchAndProcess env cache url w

/-- Body of the 400 response at lines 210-211. -/
def missingUrlMsg : String := "Missing 'url' parameter"

/-- `generate_thumbnail` (lines 207-276).  `urlParam` is
`request.args.get('url')`; `widthParam` models
`int(request.args.get('width', 400))`: `none` = parameter absent (default
400), `some none` = present but `int()` raises `ValueError`, `some (some n)`
= parses to `n`. -/
def generate_thumbnail (env : ThumbEnv) (cache : Cache)
    (urlParam : Option String) (widthParam : Option (Option ℤ)) : ThumbResult :=
  match urlParam with
  | none => ⟨.json 400 missingUrlMsg, cache, false⟩
  | some u =>
    if u = "" then ⟨.json 400 missingUrlMsg, cache, false⟩
    else
      match (match widthParam with | none => some (400 : ℤ) | some p => p) with
      | none => ⟨.json 400 "Invalid width parameter", cache, false⟩
      | some w =>
        if w < 50 ∨ 2000 < w then
          ⟨.json 400 "Width must be between 50 and 2000", cache, false⟩
        else
          thumbPipeline env cache u w

/-! ### Concrete environments used to evaluate the model at specific inputs

The digest stand-in is the identity function (only determinism matters for
the evaluated facts). -/

/-- Remote returns 200 with a body decoding to a 2×2 image. -/
def envOk : ThumbEnv :=
  ⟨fun s => s, fun _ => .ok 200 [7, 7], fun _ => some (2, 2), fun _ _ => [9, 9]⟩

/-- Remote returns the successful status 201. -/
def envStatus201 : ThumbEnv :=
  ⟨fun s => s, fun _ => .ok 201 [7, 7], fun _ => some (2, 2), fun _ _ => [9, 9]⟩

/-- Remote raises `requests.exceptions.ConnectionError` (a transport-level
failure that is neither a timeout nor a status code). -/
def envConnRefused : ThumbEnv :=
  ⟨fun s => s, fun _ => .reqError "connection refused", fun _ => none, fun _ _ => []⟩

/-- Remote returns 200 with a body decoding to a 1×1400 image (a tall strip
whose thumbnail at width 50 would be 70000 pixels high). -/
def envTallImage : ThumbEnv :=
  ⟨fun s => s, fun _ => .ok 200 [7, 7], fun _ => some (1, 1400), fun _ _ => [9, 9]⟩

/-! ### Image normalization (lines 241-251)

The mode branch of `generate_thumbnail`:

```
if img.mode in ('RGBA', 'LA', 'P'):
    background = Image.new('RGB', img.size, (255, 255, 255))
    if img.mode == 'P':
        img = img.convert('RGBA')
    background.paste(img, mask=img.split()[-1] if img.mode in ('RGBA', 'LA') else None)
    img = background
elif img.mode != 'RGB':
    img = img.convert('RGB')
```

Pixels are embedded as four natural channels; `Image.paste` with an 8-bit
mask blends with Pillow's fixed-point `MULDIV255` arithmetic. -/

/-- A pixel: four 8-bit channels (values live in [0, 255]). -/
structure Pix where
  r : ℕ
  g : ℕ
  b : ℕ
  a : ℕ
deriving DecidableEq

/-- The PIL modes the handler distinguishes: the three masked modes, RGB,
and grayscale `L` as the representative of the remaining (alpha-free)
modes converted by `img.convert('RGB')`. -/
inductive PilMode
  | RGB
  | RGBA
  | LA
  | P
  | L
deriving DecidableEq

/-- A decoded PIL raster image.  Channel conventions per mode:
`RGB`: (r, g, b) with `a` the constant-255 filler of PIL's fourth band;
`RGBA`: (r, g, b, a); `LA`: `r` = luminance and `a` = alpha (g, b unused);
`P`: `r` = palette index (rest unused) with `palette` giving the RGBA
palette entries; `L`: `r` = luminance (rest unused). -/
structure PilImage where
  width : ℕ
  height : ℕ
  mode : PilMode
  px : ℕ → ℕ → Pix
  palette : ℕ → Pix

/-- `img.convert('RGBA')` on a P-mode image (line 247): per-pixel palette
lookup. -/
def convertPToRGBA (img : PilImage) : PilImage :=
  { img with mode := .RGBA, px := fun x y => img.palette ((img.px x y).r) }

/-- `img.convert('RGB')` (line 251), reached only for modes outside
(RGBA, LA, P, RGB): grayscale luminance is replicated onto r, g, b. -/
def convertToRGB (img : PilImage) : PilImage :=
  { img with
    mode := .RGB
    px := fun x y =>
      match img.mode with
      | .L => ⟨(img.px x y).r, (img.px x y).r, (img.px x y).r, 255⟩
      | _ => ⟨(img.px x y).r, (img.px x y).g, (img.px x y).b, 255⟩ }

/-- Pillow's fixed-point `MULDIV255(v, m)` (≈ `v * m / 255`):
`t = v*m + 128; ((t >> 8) + t) >> 8`. -/
def mulDiv255 (v m : ℕ) : ℕ :=
  ((v * m + 128) / 256 + (v * m + 128)) / 256

/-- One channel of pasting over the white background with 8-bit mask `a`:
`BLEND(a, 255, c) = MULDIV255(255, 255 - a) + MULDIV255(c, a)`. -/
def blendOverWhite (c a : ℕ) : ℕ :=
  mulDiv255 255 (255 - a) + mulDiv255 c a

/-- `background.paste(img, mask=alpha)` per pixel (line 248), for the two
masked modes reaching it (RGBA, LA — a P image was converted to RGBA
first): the pasted pixel is blended over white; an LA pixel is promoted to
RGB (l, l, l) during the paste.  The result is opaque. -/
def pasteOnWhite (mode : PilMode) (p : Pix) : Pix :=
  match mode with
  | .LA => ⟨blendOverWhite p.r p.a, blendOverWhite p.r p.a,
      blendOverWhite p.r p.a, 255⟩
  | _ => ⟨blendOverWhite p.r p.a, blendOverWhite p.g p.a,
      blendOverWhite p.b p.a, 255⟩

/-- Lines 244-251: transparency/palette normalization to opaque RGB.
(Named `normalizeImage` because `normalize` already exists in Mathlib.) -/
def normalizeImage (img : PilImage) : PilImage :=
  if img.mode = .RGBA ∨ img.mode = .LA ∨ img.mode = .P then
    let img2 := if img.mode = .P then convertPToRGBA img else img
    { width := img.width, height := img.height, mode := .RGB,
      px := fun x y => pasteOnWhite img2.mode (img2.px x y),
      palette := img.palette }
  else if img.mode ≠ .RGB then convertToRGB img
  else img

/-! ## Theorems -/

/-! ### Decimal digits: basic facts -/

theorem natDigitsAux_congr :
    ∀ f₁ n, n < f₁ → ∀ f₂, n < f₂ → natDigitsAux f₁ n = natDigitsAux f₂ n := by
  intro f₁
  induction f₁ with
  | zero => intro n h; omega
  | succ f ih =>
    intro n hn f₂ hf₂
    cases f₂ with
    | zero => omega
    | succ f₂ =>
      simp only [natDigitsAux]
      by_cases h10 : n < 10
      · simp [h10]
      · simp only [h10, if_false]
        rw [ih (n / 10) (by omega) f₂ (by omega)]

theorem natDigits_lt (n : ℕ) (h : n < 10) : natDigits n = [Nat.digitChar n] := by
  rw [natDigits]
  simp [natDigitsAux, h]

theorem natDigits_ge (n : ℕ) (h : ¬ n < 10) :
    natDigits n = natDigits (n / 10) ++ [Nat.digitChar (n % 10)] := by
  have h1 : natDigits n
      = if n < 10 then [Nat.digitChar n]
        else natDigitsAux n (n / 10) ++ [Nat.digitChar (n % 10)] := rfl
  rw [h1, if_neg h, natDigitsAux_congr n (n / 10) (by omega) (n / 10 + 1) (by omega)]
  rfl

theorem natDigits_ne_nil (n : ℕ) : natDigits n ≠ [] := by
  by_cases h : n < 10
  · rw [natDigits_lt n h]; simp
  · rw [natDigits_ge n h]; simp

theorem digitChar_inj_bounded :
    ∀ a < 10, ∀ b < 10, Nat.digitChar a = Nat.digitChar b → a = b := by
  decide

theorem digitChar_inj (a b : ℕ) (ha : a < 10) (hb : b < 10)
    (h : Nat.digitChar a = Nat.digitChar b) : a = b :=
  digitChar_inj_bounded a ha b hb h

theorem natDigits_inj : ∀ m n : ℕ, natDigits m = natDigits n → m = n := by
  intro m
  induction m using Nat.strong_induction_on with
  | _ m ih =>
    intro n h
    by_cases hm : m < 10 <;> by_cases hn : n < 10
    · rw [natDigits_lt m hm, natDigits_lt n hn] at h
      simp at h
      exact digitChar_inj m n hm hn h
    · rw [natDigits_lt m hm, natDigits_ge n hn] at h
      cases hd : natDigits (n / 10) with
      | nil => exact absurd hd (natDigits_ne_nil (n / 10))
      | cons a l =>
        rw [hd] at h
        have hlen := congrArg List.length h
        simp at hlen
    · rw [natDigits_ge m hm, natDigits_lt n hn] at h
      cases hd : natDigits (m / 10) with
      | nil => exact absurd hd (natDigits_ne_nil (m / 10))
      | cons a l =>
        rw [hd] at h
        have hlen := congrArg List.length h
        simp at hlen
    · rw [natDigits_ge m hm, natDigits_ge n hn] at h
      have hinj := List.append_inj' h (by simp)
      have h1 : m / 10 = n / 10 :=
        ih (m / 10) (Nat.div_lt_self (by omega) (by omega)) (n / 10) hinj.1
      have h2 : m % 10 = n % 10 := by
        have := hinj.2
        simp at this
        exact digitChar_inj _ _ (Nat.mod_lt _ (by omega)) (Nat.mod_lt _ (by omega)) this
      omega

theorem bId_inj : ∀ m n : ℕ, bId m = bId n → m = n := by
  intro m n h
  apply natDigits_inj
  have : ('b' :: natDigits m) = ('b' :: natDigits n) := congrArg String.data h
  exact List.cons_injective this

theorem bId_injective : Function.Injective bId :=
  fun a b h => bId_inj a b h

/-! ### The while loop of the booking-id generator -/

theorem findCounter_ge (ids : List String) :
    ∀ fuel c, c ≤ findCounter ids fuel c := by
  intro fuel
  induction fuel with
  | zero => intro c; simp [findCounter]
  | succ f ih =>
    intro c
    simp only [findCounter]
    split
    · exact le_trans (by omega) (ih (c + 1))
    · exact le_refl c

theorem findCounter_mem (ids : List String) :
    ∀ fuel c m, c ≤ m → m < findCounter ids fuel c → bId m ∈ ids := by
  intro fuel
  induction fuel with
  | zero => intro c m h1 h2; simp [findCounter] at h2; omega
  | succ f ih =>
    intro c m h1 h2
    simp only [findCounter] at h2
    by_cases hc : bId c ∈ ids
    · rw [if_pos hc] at h2
      rcases eq_or_lt_of_le h1 with rfl | hlt
      · exact hc
      · exact ih (c + 1) m hlt h2
    · rw [if_neg hc] at h2; omega

theorem findCounter_free (ids : List String) :
    ∀ fuel c, (∃ n, c ≤ n ∧ n < c + fuel ∧ bId n ∉ ids) →
      bId (findCounter ids fuel c) ∉ ids := by
  intro fuel
  induction fuel with
  | zero =>
    intro c h
    obtain ⟨n, h1, h2, _⟩ := h
    omega
  | succ f ih =>
    intro c h
    obtain ⟨n, h1, h2, h3⟩ := h
    simp only [findCounter]
    by_cases hc : bId c ∈ ids
    · rw [if_pos hc]
      apply ih (c + 1)
      refine ⟨n, ?_, by omega, h3⟩
      rcases eq_or_lt_of_le h1 with rfl | hlt
      · exact absurd hc h3
      · omega
    · rw [if_neg hc]; exact hc

/-- Pigeonhole: among the `ids.length + 1` distinct candidate ids
`b1, …, b(ids.length + 1)` at least one is not in `ids`, so the loop's fuel
suffices and the Python `while` loop terminates with the same value. -/
theorem exists_free_bId (ids : List String) :
    ∃ n, 1 ≤ n ∧ n < 1 + (ids.length + 1) ∧ bId n ∉ ids := by
  by_contra hcon
  push_neg at hcon
  have hsub : (Finset.Icc 1 (ids.length + 1)).image bId ⊆ ids.toFinset := by
    intro s hs
    rw [Finset.mem_image] at hs
    obtain ⟨n, hn, rfl⟩ := hs
    rw [Finset.mem_Icc] at hn
    rw [List.mem_toFinset]
    exact hcon n hn.1 (by omega)
  have hcard : ((Finset.Icc 1 (ids.length + 1)).image bId).card = ids.length + 1 := by
    rw [Finset.card_image_of_injective _ bId_injective, Nat.card_Icc]
    omega
  have h1 := Finset.card_le_card hsub
  have h2 := ids.toFinset_card_le
  omega

theorem nextBookingNum_spec (ids : List String) :
    1 ≤ nextBookingNum ids ∧ bId (nextBookingNum ids) ∉ ids ∧
      ∀ m, 1 ≤ m → m < nextBookingNum ids → bId m ∈ ids := by
  refine ⟨findCounter_ge ids _ 1, ?_, fun m h1 h2 => findCounter_mem ids _ 1 m h1 h2⟩
  exact findCounter_free ids (ids.length + 1) 1 (exists_free_bId ids)

/-! ### Association-list lookup -/

theorem lookup_append_of_none {β : Type} (l₁ l₂ : List (String × β)) (k : String)
    (h : l₁.lookup k = none) : (l₁ ++ l₂).lookup k = l₂.lookup k := by
  induction l₁ with
  | nil => simp
  | cons p t ih =>
    obtain ⟨a, b⟩ := p
    cases hab : (k == a) with
    | true => simp [List.lookup, hab] at h
    | false =>
      simp only [List.cons_append, List.lookup, hab] at h ⊢
      exact ih h

/-! ### Claim C9: booking id assignment -/

/-- **C9.** For every `POST /bookings` whose body lacks an `id` field and
every database state, the server assigns the id `b{n}` for the smallest
positive `n` such that `b{n}` is not among the existing booking ids, so the
assigned id differs from the id of every booking already in the database. -/
theorem bookingsPost_assigns_least_free_id (db : Db) (body : Rec)
    (h : dictHas body "id" = false) :
    dictGet (bookingsPost db body).2.1 "id"
        = some (bId (nextBookingNum (existingIds db.bookings)))
    ∧ 1 ≤ nextBookingNum (existingIds db.bookings)
    ∧ bId (nextBookingNum (existingIds db.bookings)) ∉ existingIds db.bookings
    ∧ (∀ m, 1 ≤ m → m < nextBookingNum (existingIds db.bookings) →
        bId m ∈ existingIds db.bookings)
    ∧ (∀ b ∈ db.bookings,
        dictGet b "id" ≠ some (bId (nextBookingNum (existingIds db.bookings)))) := by
  obtain ⟨hpos, hfree, hmin⟩ := nextBookingNum_spec (existingIds db.bookings)
  have hnone : body.lookup "id" = none := by
    rw [dictHas] at h
    exact Option.not_isSome_iff_eq_none.mp (by rw [h]; simp)
  refine ⟨?_, hpos, hfree, hmin, ?_⟩
  · simp only [bookingsPost, h, Bool.false_eq_true, if_false, dictAdd, dictGet]
    rw [lookup_append_of_none _ _ _ hnone]
    simp [List.lookup]
  · intro b hb heq
    apply hfree
    rw [existingIds, List.mem_map]
    refine ⟨b, hb, ?_⟩
    rw [dictGetD, dictGet] at *
    rw [heq]
    rfl

/-- Witness for C9 at a concrete database: with one existing booking `b1`,
the body without an id is assigned `b2`. -/
theorem bookingsPost_assigns_least_free_id_witness :
    dictHas [("user_id", "u1")] "id" = false
    ∧ dictGet (bookingsPost ⟨[], [], [[("id", "b1")]]⟩ [("user_id", "u1")]).2.1 "id"
        = some "b2" := by
  refine ⟨rfl, ?_⟩
  have h :=
    (bookingsPost_assigns_least_free_id ⟨[], [], [[("id", "b1")]]⟩
      [("user_id", "u1")] rfl).1
  rw [h]
  rfl

/-! ### Claim C8: create endpoints and ids -/

/-- **C8 counterexample.** `POST /users` with a body lacking an `id` stores
and returns the record without any id: the server does not assign one
(lines 57-61 simply append the request body). -/
theorem usersPost_stores_record_without_id :
    (usersPost ⟨[], [], []⟩ []).2.1 = ([] : Rec)
    ∧ dictGet (usersPost ⟨[], [], []⟩ []).2.1 "id" = none
    ∧ (usersPost ⟨[], [], []⟩ []).1.users = [([] : Rec)] := by
  exact ⟨rfl, rfl, rfl⟩

/-- **C8 (amended).** All three create endpoints accept a client-supplied id
unchanged; only `POST /bookings` assigns an id when the body lacks one, while
`POST /users` and `POST /vehicles` store and return the body unchanged (so
the stored record has an id only if the client supplied one). -/
theorem recordStore_create_id (db : Db) (body : Rec) :
    (usersPost db body).2.1 = body
    ∧ (usersPost db body).1.users = db.users ++ [body]
    ∧ (vehiclesPost db body).2.1 = body
    ∧ (vehiclesPost db body).1.vehicles = db.vehicles ++ [body]
    ∧ (dictHas body "id" = true → (bookingsPost db body).2.1 = body)
    ∧ (dictHas body "id" = false →
        dictGet (bookingsPost db body).2.1 "id"
          = some (bId (nextBookingNum (existingIds db.bookings))))
    ∧ (bookingsPost db body).1.bookings = db.bookings ++ [(bookingsPost db body).2.1] := by
  refine ⟨rfl, rfl, rfl, rfl, ?_, ?_, rfl⟩
  · intro h
    simp [bookingsPost, h]
  · intro h
    have hnone : body.lookup "id" = none := by
      rw [dictHas] at h
      exact Option.not_isSome_iff_eq_none.mp (by rw [h]; simp)
    simp only [bookingsPost, h, Bool.false_eq_true, if_false, dictAdd, dictGet]
    rw [lookup_append_of_none _ _ _ hnone]
    simp [List.lookup]

/-- Witness for C8 (amended) at concrete inputs: a supplied booking id is
kept, a missing booking id is assigned `b1`, and a user body is stored
unchanged. -/
theorem recordStore_create_id_witness :
    (usersPost ⟨[], [], []⟩ [("name", "a")]).2.1 = [("name", "a")]
    ∧ (bookingsPost ⟨[], [], []⟩ [("id", "x")]).2.1 = [("id", "x")]
    ∧ dictGet (bookingsPost ⟨[], [], []⟩ []).2.1 "id" = some "b1" := by
  refine ⟨(recordStore_create_id ⟨[], [], []⟩ [("name", "a")]).1,
    (recordStore_create_id ⟨[], [], []⟩ [("id", "x")]).2.2.2.2.1 rfl, ?_⟩
  rw [(recordStore_create_id ⟨[], [], []⟩ ([] : Rec)).2.2.2.2.2.1 rfl]
  rfl

/-! ### Claim C10: truthiness of the equality filters -/

/-- **C10.** A filter query parameter that is present but equal to the empty
string is treated like an absent parameter: the full collection is returned
(not the records whose field equals `""`); the equality filter is applied
only when the supplied value is non-empty — for `email` on `/users`,
`provider_id` on `/vehicles`, and `user_id`/`vehicle_id` on `/bookings`. -/
theorem filters_ignore_empty_params (db : Db) :
    usersGet db (some "") = db.users
    ∧ usersGet db none = db.users
    ∧ vehiclesGet db (some "") = db.vehicles
    ∧ bookingsGet db (some "") (some "") = db.bookings
    ∧ bookingsGet db (some "") none = db.bookings
    ∧ bookingsGet db none (some "") = db.bookings
    ∧ (∀ e, e ≠ "" → usersGet db (some e)
        = db.users.filter (fun u => dictGet u "email" == some e))
    ∧ (∀ p, p ≠ "" → vehiclesGet db (some p)
        = db.vehicles.filter (fun v => dictGet v "provider_id" == some p))
    ∧ (∀ u v, u ≠ "" → v ≠ "" → bookingsGet db (some u) (some v)
        = (db.bookings.filter (fun b => dictGet b "user_id" == some u)).filter
            (fun b => dictGet b "vehicle_id" == some v)) := by
  refine ⟨by simp [usersGet, truthy], by simp [usersGet, truthy],
    by simp [vehiclesGet, truthy], by simp [bookingsGet, truthy],
    by simp [bookingsGet, truthy], by simp [bookingsGet, truthy],
    ?_, ?_, ?_⟩
  · intro e he
    simp [usersGet, truthy, he]
  · intro p hp
    simp [vehiclesGet, truthy, hp]
  · intro u v hu hv
    simp [bookingsGet, truthy, hu, hv]

/-- Witness for C10 at a concrete database: the empty email filter returns
both users (not just the one whose email is empty), and a non-empty filter
selects by equality. -/
theorem filters_ignore_empty_params_witness :
    usersGet ⟨[[("email", "x")], [("email", "")]], [], []⟩ (some "")
      = [[("email", "x")], [("email", "")]]
    ∧ usersGet ⟨[[("email", "x")], [("email", "")]], [], []⟩ (some "x")
      = [[("email", "x")]] := by
  refine ⟨(filters_ignore_empty_params _).1, ?_⟩
  rw [(filters_ignore_empty_params ⟨[[("email", "x")], [("email", "")]], [], []⟩).2.2.2.2.2.2.1
    "x" (by decide)]
  rfl

/-! ### Cache-store lemmas -/

theorem cacheLookup_write_self (c : Cache) (p : String) (v : List ℕ) :
    cacheLookup (cacheWrite c p v) p = some v := by
  simp [cacheLookup, cacheWrite, List.lookup]

/-! ### Branch-reduction lemmas for the pipeline -/

theorem thumbPipeline_hit (env : ThumbEnv) (cache : Cache) (url : String)
    (w : ℤ) (bs : List ℕ) (h : cacheLookup cache (thumbPath env url w) = some bs) :
    thumbPipeline env cache url w = ⟨.file bs, cache, false⟩ := by
  unfold thumbPipeline
  rw [h]

theorem thumbPipeline_miss (env : ThumbEnv) (cache : Cache) (url : String)
    (w : ℤ) (h : cacheLookup cache (thumbPath env url w) = none) :
    thumbPipeline env cache url w = fetchAndProcess env cache url w := by
  unfold thumbPipeline
  rw [h]

theorem generate_thumbnail_valid (env : ThumbEnv) (cache : Cache) (u : String)
    (widthParam : Option (Option ℤ)) (w : ℤ) (hu : ¬ u = "")
    (hwp : (match widthParam with | none => some (400 : ℤ) | some p => p) = some w)
    (hw : ¬ (w < 50 ∨ 2000 < w)) :
    generate_thumbnail env cache (some u) widthParam = thumbPipeline env cache u w := by
  unfold generate_thumbnail
  rw [hwp]
  simp [hu, hw]

theorem generate_thumbnail_badwidth (env : ThumbEnv) (cache : Cache) (u : String)
    (widthParam : Option (Option ℤ)) (hu : ¬ u = "")
    (hwp : (match widthParam with | none => some (400 : ℤ) | some p => p) = none) :
    generate_thumbnail env cache (some u) widthParam
      = ⟨.json 400 "Invalid width parameter", cache, false⟩ := by
  unfold generate_thumbnail
  rw [hwp]
  simp [hu]

theorem generate_thumbnail_range (env : ThumbEnv) (cache : Cache) (u : String)
    (widthParam : Option (Option ℤ)) (w : ℤ) (hu : ¬ u = "")
    (hwp : (match widthParam with | none => some (400 : ℤ) | some p => p) = some w)
    (hw : w < 50 ∨ 2000 < w) :
    generate_thumbnail env cache (some u) widthParam
      = ⟨.json 400 "Width must be between 50 and 2000", cache, false⟩ := by
  unfold generate_thumbnail
  rw [hwp]
  simp [hu, hw]

theorem fetchAndProcess_timeout (env : ThumbEnv) (cache : Cache) (url : String)
    (w : ℤ) (hf : env.fetch url = .timeout) :
    fetchAndProcess env cache url w
      = ⟨.json 504 "Request timeout while fetching image", cache, true⟩ := by
  unfold fetchAndProcess
  rw [hf]

theorem fetchAndProcess_reqError (env : ThumbEnv) (cache : Cache) (url : String)
    (w : ℤ) (d : String) (hf : env.fetch url = .reqError d) :
    fetchAndProcess env cache url w
      = ⟨.json 500 ("Failed to fetch image: " ++ d), cache, true⟩ := by
  unfold fetchAndProcess
  rw [hf]

theorem fetchAndProcess_ok (env : ThumbEnv) (cache : Cache) (url : String)
    (w : ℤ) (status : ℕ) (body : List ℕ) (hf : env.fetch url = .ok status body) :
    fetchAndProcess env cache url w
      = if status ≠ 200 then ⟨.json 404 "Failed to fetch image", cache, true⟩
        else processBody env cache url w body := by
  unfold fetchAndProcess
  rw [hf]

theorem processBody_none (env : ThumbEnv) (cache : Cache) (url : String)
    (w : ℤ) (body : List ℕ) (hd : env.decode body = none) :
    processBody env cache url w body
      = ⟨.json 500 ("Image processing failed: " ++ decodeFailMsg), cache, true⟩ := by
  unfold processBody
  rw [hd]

theorem processBody_some (env : ThumbEnv) (cache : Cache) (url : String)
    (w : ℤ) (body : List ℕ) (iw iht : ℕ) (hd : env.decode body = some (iw, iht)) :
    processBody env cache url w body = resizeAndSave env cache url w body iw iht := by
  unfold processBody
  rw [hd]

/-- On a miss whose pipeline succeeds with 200, the response bytes are
exactly the bytes stored at the request's cache path. -/
theorem thumbPipeline_idem (env : ThumbEnv) (cache : Cache) (url : String)
    (w : ℤ) (b : List ℕ) (h : (thumbPipeline env cache url w).resp = .file b) :
    thumbPipeline env (thumbPipeline env cache url w).cache url w
      = ⟨.file b, (thumbPipeline env cache url w).cache, false⟩ := by
  cases hcl : cacheLookup cache (thumbPath env url w) with
  | some bs =>
    rw [thumbPipeline_hit env cache url w bs hcl] at h ⊢
    simp only [Response.file.injEq] at h
    subst h
    exact thumbPipeline_hit env cache url w bs hcl
  | none =>
    rw [thumbPipeline_miss env cache url w hcl] at h ⊢
    cases hf : env.fetch url with
    | timeout => rw [fetchAndProcess_timeout env cache url w hf] at h; simp at h
    | reqError d => rw [fetchAndProcess_reqError env cache url w d hf] at h; simp at h
    | ok status body =>
      rw [fetchAndProcess_ok env cache url w status body hf] at h ⊢
      by_cases hs : status = 200
      · subst hs
        rw [if_neg (by simp)] at h ⊢
        cases hd : env.decode body with
        | none => rw [processBody_none env cache url w body hd] at h; simp at h
        | some dims =>
          obtain ⟨iw, iht⟩ := dims
          rw [processBody_some env cache url w body iw iht hd] at h ⊢
          unfold resizeAndSave at h ⊢
          by_cases hiw : iw = 0
          · rw [if_pos hiw] at h; simp at h
          · rw [if_neg hiw] at h ⊢
            by_cases hnh : newHeight w.toNat iw iht = 0
            · rw [if_pos hnh] at h; simp at h
            · rw [if_neg hnh] at h ⊢
              by_cases hbig : 65500 < newHeight w.toNat iw iht
              · rw [if_pos hbig] at h; simp at h
              · rw [if_neg hbig] at h ⊢
                simp only [Response.file.injEq] at h
                subst h
                exact thumbPipeline_hit env _ url w _ (cacheLookup_write_self _ _ _)
      · rw [if_pos (by simpa using hs)] at h
        simp at h

/-! ### Claim C1: cache idempotence -/

/-- **C1.** For every (url, width) request whose first invocation succeeds
with 200, a second invocation of the identical request returns a
byte-identical body served from the cache, does not invoke the remote
fetcher, and leaves the cache unchanged — so the caller cannot distinguish
hit from miss by the body. -/
theorem thumbnail_cache_idempotent (env : ThumbEnv) (cache : Cache)
    (urlParam : Option String) (widthParam : Option (Option ℤ)) (b : List ℕ)
    (h : (generate_thumbnail env cache urlParam widthParam).resp = .file b) :
    (generate_thumbnail env (generate_thumbnail env cache urlParam widthParam).cache
        urlParam widthParam).resp = .file b
    ∧ (generate_thumbnail env (generate_thumbnail env cache urlParam widthParam).cache
        urlParam widthParam).fetched = false
    ∧ (generate_thumbnail env (generate_thumbnail env cache urlParam widthParam).cache
        urlParam widthParam).cache
      = (generate_thumbnail env cache urlParam widthParam).cache := by
  cases urlParam with
  | none => simp [generate_thumbnail] at h
  | some u =>
    by_cases hu : u = ""
    · subst hu
      simp [generate_thumbnail] at h
    · cases hwp : (match widthParam with | none => some (400 : ℤ) | some p => p) with
      | none =>
        rw [generate_thumbnail_badwidth env cache u widthParam hu hwp] at h
        simp at h
      | some w =>
        by_cases hw : w < 50 ∨ 2000 < w
        · rw [generate_thumbnail_range env cache u widthParam w hu hwp hw] at h
          simp at h
        · have hg : ∀ c, generate_thumbnail env c (some u) widthParam
              = thumbPipeline env c u w :=
            fun c => generate_thumbnail_valid env c u widthParam w hu hwp hw
          rw [hg] at h
          simp only [hg]
          rw [thumbPipeline_idem env cache u w b h]
          exact ⟨rfl, rfl, rfl⟩

/-- Witness for C1: a concrete first request that misses, succeeds with 200
and stores `[9, 9]`; the second identical request returns the same bytes
without fetching. -/
theorem thumbnail_cache_idempotent_witness :
    (generate_thumbnail envOk [] (some "http://img/a.png") none).resp = .file [9, 9]
    ∧ (generate_thumbnail envOk
        (generate_thumbnail envOk [] (some "http://img/a.png") none).cache
        (some "http://img/a.png") none).resp = .file [9, 9]
    ∧ (generate_thumbnail envOk
        (generate_thumbnail envOk [] (some "http://img/a.png") none).cache
        (some "http://img/a.png") none).fetched = false := by
  have h1 : (generate_thumbnail envOk [] (some "http://img/a.png") none).resp
      = .file [9, 9] := by with_unfolding_all rfl
  have h2 := thumbnail_cache_idempotent envOk [] (some "http://img/a.png") none [9, 9] h1
  exact ⟨h1, h2.1, h2.2.1⟩

/-! ### Claim C3: width validation -/

/-- **C3 (amended).** For every request with a present, non-empty url: if the
width parameter fails to parse as an integer the handler returns 400
`Invalid width parameter`, and if it parses to a value below 50 or above
2000 it returns 400 `Width must be between 50 and 2000`; in both cases the
cache is untouched and the remote fetcher is not invoked (no I/O before the
rejection). -/
theorem invalid_width_rejected_before_io (env : ThumbEnv) (cache : Cache)
    (u : String) (hu : u ≠ "") :
    generate_thumbnail env cache (some u) (some none)
      = ⟨.json 400 "Invalid width parameter", cache, false⟩
    ∧ ∀ n : ℤ, n < 50 ∨ 2000 < n →
      generate_thumbnail env cache (some u) (some (some n))
        = ⟨.json 400 "Width must be between 50 and 2000", cache, false⟩ := by
  constructor
  · exact generate_thumbnail_badwidth env cache u (some none) hu rfl
  · intro n hn
    exact generate_thumbnail_range env cache u (some (some n)) n hu rfl hn

/-- Witness for C3 (amended) at concrete inputs: an unparseable width and the
out-of-range width 10 are both rejected with 400, an unchanged cache and no
fetch. -/
theorem invalid_width_rejected_before_io_witness :
    generate_thumbnail envOk [] (some "http://img/a.png") (some none)
      = ⟨.json 400 "Invalid width parameter", [], false⟩
    ∧ generate_thumbnail envOk [] (some "http://img/a.png") (some (some 10))
      = ⟨.json 400 "Width must be between 50 and 2000", [], false⟩ := by
  have h := invalid_width_rejected_before_io envOk [] "http://img/a.png" (by decide)
  exact ⟨h.1, h.2 10 (Or.inl (by decide))⟩

/-- **C3 counterexample.** The claim quantifies over every request with a bad
width, but a request with no url and an unparseable width is answered with
the missing-url body, not with either width-error body: url validation
precedes width validation (lines 209-211). -/
theorem width_error_preempted_by_missing_url :
    generate_thumbnail envOk [] none (some none)
      = ⟨.json 400 missingUrlMsg, [], false⟩
    ∧ Response.json 400 missingUrlMsg ≠ .json 400 "Invalid width parameter"
    ∧ Response.json 400 missingUrlMsg ≠ .json 400 "Width must be between 50 and 2000" := by
  refine ⟨rfl, by decide, by decide⟩

/-! ### Claim C5: non-200 statuses -/

/-- **C5 (amended).** On a cache miss with a valid request, the service
returns 404 `Failed to fetch image` iff the remote's status code is not
exactly 200; every other status — including successful 2xx statuses such as
201 or 206 — is rejected the same way, and only status 200 proceeds to
decoding (line 236 tests `status_code != 200`). -/
theorem fetch_status_404_iff_not_200 (env : ThumbEnv) (cache : Cache)
    (url : String) (w : ℤ) (status : ℕ) (body : List ℕ)
    (hmiss : cacheLookup cache (thumbPath env url w) = none)
    (hf : env.fetch url = .ok status body) :
    (thumbPipeline env cache url w).resp = .json 404 "Failed to fetch image"
      ↔ status ≠ 200 := by
  rw [thumbPipeline_miss env cache url w hmiss,
    fetchAndProcess_ok env cache url w status body hf]
  constructor
  · intro h hs
    subst hs
    rw [if_neg (by simp)] at h
    cases hd : env.decode body with
    | none => rw [processBody_none env cache url w body hd] at h; simp at h
    | some dims =>
      obtain ⟨iw, iht⟩ := dims
      rw [processBody_some env cache url w body iw iht hd] at h
      unfold resizeAndSave at h
      by_cases hiw : iw = 0
      · rw [if_pos hiw] at h; simp at h
      · rw [if_neg hiw] at h
        by_cases hnh : newHeight w.toNat iw iht = 0
        · rw [if_pos hnh] at h; simp at h
        · rw [if_neg hnh] at h
          by_cases hbig : 65500 < newHeight w.toNat iw iht
          · rw [if_pos hbig] at h; simp at h
          · rw [if_neg hbig] at h; simp at h
  · intro hs
    rw [if_pos hs]

/-- Witness for C5 (amended): with the remote answering 201, the concrete
request is answered 404. -/
theorem fetch_status_404_iff_not_200_witness :
    ((thumbPipeline envStatus201 [] "http://img" 100).resp
      = .json 404 "Failed to fetch image") ↔ (201 : ℕ) ≠ 200 :=
  fetch_status_404_iff_not_200 envStatus201 [] "http://img" 100 201 [7, 7] rfl rfl

/-- **C5 counterexample.** 201 is a successful status code (2xx), yet the
service rejects it with 404 instead of proceeding to decode the body. -/
theorem successful_status_201_rejected_as_404 :
    envStatus201.fetch "http://img" = .ok 201 [7, 7]
    ∧ (200 ≤ 201 ∧ 201 < 300)
    ∧ (generate_thumbnail envStatus201 [] (some "http://img") (some (some 100))).resp
        = .json 404 "Failed to fetch image" := by
  refine ⟨rfl, by decide, rfl⟩

/-! ### Claim C6: non-timeout transport failures -/

/-- **C6 (amended).** On a cache miss, every transport-level failure other
than a timeout (`requests.exceptions.RequestException`, e.g. DNS failure or
connection refused) is answered with HTTP 500 and the JSON body
`{"error": "Failed to fetch image: <detail>"}` — not
`Image processing failed: <detail>` — and the cache is unchanged
(lines 273-274). -/
theorem network_error_maps_to_500 (env : ThumbEnv) (cache : Cache)
    (url : String) (w : ℤ) (d : String)
    (hmiss : cacheLookup cache (thumbPath env url w) = none)
    (hf : env.fetch url = .reqError d) :
    thumbPipeline env cache url w
      = ⟨.json 500 ("Failed to fetch image: " ++ d), cache, true⟩ := by
  rw [thumbPipeline_miss env cache url w hmiss]
  exact fetchAndProcess_reqError env cache url w d hf

/-- Witness for C6 (amended): a concrete connection-refused failure yields
500 with the `Failed to fetch image:` body. -/
theorem network_error_maps_to_500_witness :
    thumbPipeline envConnRefused [] "http://img" 100
      = ⟨.json 500 ("Failed to fetch image: " ++ "connection refused"), [], true⟩ :=
  network_error_maps_to_500 envConnRefused [] "http://img" 100 "connection refused"
    rfl rfl

/-- **C6 counterexample.** At a concrete transport failure (connection
refused) the handler returns 500 with body
`Failed to fetch image: connection refused`; the claim predicted the body
`Image processing failed: connection refused`, which is a different
response. -/
theorem network_error_body_counterexample :
    (generate_thumbnail envConnRefused [] (some "http://img") (some (some 100))).resp
      = .json 500 "Failed to fetch image: connection refused"
    ∧ Response.json 500 "Failed to fetch image: connection refused"
      ≠ .json 500 "Image processing failed: connection refused" := by
  refine ⟨rfl, by decide⟩

/-! ### Claim C7: failures and the cache store -/

/-- **C7 (code bug).** A failing request can leave a corrupt cache entry.
With remote image dimensions 1×1400 and width 50 the target height is
`int(50 * 1400.0) = 70000`, above libjpeg's 65500-pixel limit; `img.resize`
succeeds, then `img.save` creates and truncates the cache file before the
JPEG encoder rejects the oversized dimensions, so the request fails with
500 while a 0-byte entry remains under the request's cache key — and a
subsequent identical request serves that empty file as a 200 cache hit. -/
theorem failed_save_leaves_corrupt_cache_entry :
    newHeight 50 1 1400 = 70000
    ∧ (generate_thumbnail envTallImage [] (some "http://img/tall.png")
        (some (some 50))).resp
      = .json 500 ("Image processing failed: " ++ jpegDimensionMsg)
    ∧ cacheLookup
        (generate_thumbnail envTallImage [] (some "http://img/tall.png")
          (some (some 50))).cache
        (thumbPath envTallImage "http://img/tall.png" 50) = some []
    ∧ (generate_thumbnail envTallImage
        (generate_thumbnail envTallImage [] (some "http://img/tall.png")
          (some (some 50))).cache
        (some "http://img/tall.png") (some (some 50))).resp = .file [] := by
  refine ⟨by with_unfolding_all rfl, by with_unfolding_all rfl,
    by with_unfolding_all rfl, by with_unfolding_all rfl⟩

/-! ### Claim C2: aspect-ratio height

Specification lemmas for the binade exponent and the binary64 rounding,
then the claim theorems. -/

theorem log2Aux_congr :
    ∀ f₁ n, n ≤ f₁ → ∀ f₂, n ≤ f₂ → log2Aux f₁ n = log2Aux f₂ n := by
  intro f₁
  induction f₁ with
  | zero =>
    intro n hn f₂ _
    interval_cases n
    cases f₂ <;> simp [log2Aux]
  | succ f ih =>
    intro n hn f₂ hf₂
    cases f₂ with
    | zero =>
      have : n = 0 := by omega
      subst this
      simp [log2Aux]
    | succ f₂ =>
      simp only [log2Aux]
      by_cases h2 : n < 2
      · simp [h2]
      · simp only [h2, if_false]
        rw [ih (n / 2) (by omega) f₂ (by omega)]

theorem natLog2_unfold (n : ℕ) :
    natLog2 n = if n < 2 then 0 else natLog2 (n / 2) + 1 := by
  cases n with
  | zero => simp [natLog2, log2Aux]
  | succ m =>
    rw [natLog2]
    show log2Aux (m + 1) (m + 1) = _
    by_cases h2 : m + 1 < 2
    · simp [log2Aux, h2]
    · simp only [log2Aux, h2, if_false]
      rw [natLog2, log2Aux_congr m ((m + 1) / 2) (by omega) ((m + 1) / 2) (le_refl _)]

theorem natLog2_spec : ∀ n, 1 ≤ n → 2 ^ natLog2 n ≤ n ∧ n < 2 ^ (natLog2 n + 1) := by
  intro n
  induction n using Nat.strong_induction_on with
  | _ n ih =>
    intro hn
    by_cases h2 : n < 2
    · have : n = 1 := by omega
      subst this
      simp [natLog2, log2Aux]
    · rw [natLog2_unfold n, if_neg h2]
      obtain ⟨ihl, ihr⟩ := ih (n / 2) (by omega) (by omega)
      constructor
      · calc 2 ^ (natLog2 (n / 2) + 1) = 2 * 2 ^ natLog2 (n / 2) := by ring
          _ ≤ 2 * (n / 2) := by omega
          _ ≤ n := by omega
      · have e1 : 2 ^ (natLog2 (n / 2) + 1 + 1) = 2 * 2 ^ (natLog2 (n / 2) + 1) := by ring
        omega

theorem qExp_spec (q : ℚ) (hq : 0 < q) :
    (2 : ℚ) ^ qExp q ≤ q ∧ q < (2 : ℚ) ^ (qExp q + 1) := by
  have hnum : 0 < q.num := Rat.num_pos.mpr hq
  have ha1 : 1 ≤ q.num.toNat := by omega
  have hb1 : 1 ≤ q.den := q.den_pos
  have hnum_cast : ((q.num.toNat : ℕ) : ℚ) = (q.num : ℚ) := by
    exact_mod_cast congrArg (Int.cast : ℤ → ℚ) (Int.toNat_of_nonneg hnum.le)
  have hq_eq : q = (q.num.toNat : ℚ) / (q.den : ℚ) := by
    rw [hnum_cast, Rat.num_div_den]
  obtain ⟨hla1, hla2⟩ := natLog2_spec q.num.toNat ha1
  obtain ⟨hlb1, hlb2⟩ := natLog2_spec q.den hb1
  have hqe : qExp q
      = if q.den * 2 ^ natLog2 q.num.toNat ≤ q.num.toNat * 2 ^ natLog2 q.den
        then (natLog2 q.num.toNat : ℤ) - natLog2 q.den
        else (natLog2 q.num.toNat : ℤ) - natLog2 q.den - 1 := rfl
  have hbQ : (0 : ℚ) < q.den := by exact_mod_cast hb1
  have h2 : (2 : ℚ) ≠ 0 := two_ne_zero
  set a := q.num.toNat
  set b := q.den
  set la := natLog2 a
  set lb := natLog2 b
  by_cases hc : b * 2 ^ la ≤ a * 2 ^ lb
  · rw [hqe, if_pos hc]
    constructor
    · rw [hq_eq, zpow_sub₀ h2, zpow_natCast, zpow_natCast,
        div_le_div_iff₀ (by positivity) hbQ]
      exact_mod_cast Nat.mul_comm b (2 ^ la) ▸ hc
    · rw [hq_eq, show (la : ℤ) - lb + 1 = ((la + 1 : ℕ) : ℤ) - lb by push_cast; ring,
        zpow_sub₀ h2, zpow_natCast, zpow_natCast,
        div_lt_div_iff₀ hbQ (by positivity)]
      have : (a : ℚ) * 2 ^ lb < 2 ^ (la + 1) * b := by
        have h1 : (a : ℚ) < 2 ^ (la + 1) := by exact_mod_cast hla2
        have h2' : (2 : ℚ) ^ lb ≤ b := by exact_mod_cast hlb1
        calc (a : ℚ) * 2 ^ lb < 2 ^ (la + 1) * 2 ^ lb := by
              apply mul_lt_mul_of_pos_right h1 (by positivity)
          _ ≤ 2 ^ (la + 1) * b := by
              apply mul_le_mul_of_nonneg_left h2' (by positivity)
      exact this
  · rw [hqe, if_neg hc]
    push_neg at hc
    constructor
    · rw [hq_eq, show (la : ℤ) - lb - 1 = (la : ℤ) - ((lb + 1 : ℕ) : ℤ) by push_cast; ring,
        zpow_sub₀ h2, zpow_natCast, zpow_natCast,
        div_le_div_iff₀ (by positivity) hbQ]
      have h1 : (2 : ℚ) ^ la ≤ a := by exact_mod_cast hla1
      have h2' : (b : ℚ) < 2 ^ (lb + 1) := by exact_mod_cast hlb2
      calc (2 : ℚ) ^ la * b ≤ (a : ℚ) * b := by
            apply mul_le_mul_of_nonneg_right h1 (by positivity)
        _ ≤ (a : ℚ) * 2 ^ (lb + 1) := by
            apply mul_le_mul_of_nonneg_left h2'.le (by positivity)
    · rw [hq_eq, show (la : ℤ) - lb - 1 + 1 = (la : ℤ) - lb by ring,
        zpow_sub₀ h2, zpow_natCast, zpow_natCast,
        div_lt_div_iff₀ hbQ (by positivity)]
      exact_mod_cast Nat.mul_comm (2 ^ la) b ▸ hc

theorem rnInt_err (x : ℚ) : |(rnInt x : ℚ) - x| ≤ 1 / 2 := by
  have h1 : (⌊x⌋ : ℚ) ≤ x := Int.floor_le x
  have h2 : x < ⌊x⌋ + 1 := Int.lt_floor_add_one x
  unfold rnInt
  split_ifs with ha hb hc <;> rw [abs_le] <;> push_cast <;> constructor <;> linarith

theorem rn_err (q : ℚ) (hq : 0 < q) : |rn q - q| ≤ q / 2 ^ 53 := by
  obtain ⟨he1, he2⟩ := qExp_spec q hq
  set e := qExp q with he_def
  set x := q * 2 ^ (52 - e) with hx_def
  have h2 : (2 : ℚ) ≠ 0 := two_ne_zero
  have hscale : (2 : ℚ) ^ (52 - e) * 2 ^ (e - 52) = 1 := by
    rw [← zpow_add₀ h2]
    norm_num
  have hq_back : x * 2 ^ (e - 52) = q := by
    rw [hx_def, mul_assoc, hscale, mul_one]
  have hrn : rn q = (rnInt x : ℚ) * 2 ^ (e - 52) := by
    rw [rn, if_pos hq]
  have hdiff : rn q - q = ((rnInt x : ℚ) - x) * 2 ^ (e - 52) := by
    rw [hrn, ← hq_back]
    ring
  have hzpos : (0 : ℚ) < 2 ^ (e - 52) := by positivity
  rw [hdiff, abs_mul, abs_of_pos hzpos]
  have hb := rnInt_err x
  have : |(rnInt x : ℚ) - x| * 2 ^ (e - 52) ≤ (1 / 2) * 2 ^ (e - 52) := by
    apply mul_le_mul_of_nonneg_right hb hzpos.le
  apply le_trans this
  have he53 : (1 / 2 : ℚ) * 2 ^ (e - 52) = 2 ^ e / 2 ^ 53 := by
    rw [show ((2 : ℚ) ^ (53 : ℕ)) = 2 ^ (53 : ℤ) from (zpow_natCast 2 53).symm,
      eq_div_iff (by positivity), show (1 / 2 : ℚ) = 2 ^ (-1 : ℤ) by norm_num,
      ← zpow_add₀ h2, ← zpow_add₀ h2]
    congr 1
    ring
  rw [he53]
  apply div_le_div_of_nonneg_right ?_ (by positivity)
  · exact he1

theorem rn_pos (q : ℚ) (hq : 0 < q) : 0 < rn q := by
  have h := rn_err q hq
  rw [abs_le] at h
  have hlt : q / 2 ^ 53 < q := by
    apply div_lt_self hq
    norm_num
  linarith [h.1]

set_option maxHeartbeats 2000000 in
theorem newHeight_float_within_one (w W H : ℕ) (hW : 1 ≤ W) (hH : 1 ≤ H)
    (hw1 : 50 ≤ w) (hw2 : w ≤ 2000) (hWb : W ≤ 2 ^ 31) (hHb : H ≤ 2 ^ 31) :
    |(newHeight w W H : ℚ) - (w : ℚ) * H / W| ≤ 1
    ∧ ((newHeight w W H : ℤ) = ⌊(w : ℚ) * H / W⌋
       ∨ ((w * H) % W = 0 ∧ (newHeight w W H : ℤ) = ⌊(w : ℚ) * H / W⌋ - 1)) := by
  have hWQ : (0 : ℚ) < W := by exact_mod_cast Nat.lt_of_lt_of_le Nat.zero_lt_one hW
  have hHQ : (0 : ℚ) < H := by exact_mod_cast Nat.lt_of_lt_of_le Nat.zero_lt_one hH
  have hwQ : (0 : ℚ) < w := by
    exact_mod_cast Nat.lt_of_lt_of_le Nat.zero_lt_one (by omega)
  set q1 : ℚ := (H : ℚ) / W with hq1_def
  have hq1 : 0 < q1 := div_pos hHQ hWQ
  set A := rn q1 with hA_def
  have hA_err := rn_err q1 hq1
  have hA_pos := rn_pos q1 hq1
  set q2 : ℚ := (w : ℚ) * A with hq2_def
  have hq2 : 0 < q2 := mul_pos hwQ hA_pos
  set V := rn q2 with hV_def
  have hV_err := rn_err q2 hq2
  have hV_pos := rn_pos q2 hq2
  set x : ℚ := (w : ℚ) * H / W with hx_def
  have hx_q1 : x = (w : ℚ) * q1 := by rw [hx_def, hq1_def]; ring
  have hx_pos : 0 < x := by rw [hx_q1]; exact mul_pos hwQ hq1
  have hnh : newHeight w W H = (⌊V⌋).toNat := rfl
  rw [abs_le] at hA_err hV_err
  have hq2x_hi : q2 - x ≤ x / 2 ^ 53 := by
    rw [hq2_def, hx_q1]
    calc (w : ℚ) * A - (w : ℚ) * q1 = (w : ℚ) * (A - q1) := by ring
      _ ≤ (w : ℚ) * (q1 / 2 ^ 53) := mul_le_mul_of_nonneg_left hA_err.2 hwQ.le
      _ = ((w : ℚ) * q1) / 2 ^ 53 := by ring
  have hq2x_lo : -(x / 2 ^ 53) ≤ q2 - x := by
    rw [hq2_def, hx_q1]
    calc -(((w : ℚ) * q1) / 2 ^ 53) = (w : ℚ) * (-(q1 / 2 ^ 53)) := by ring
      _ ≤ (w : ℚ) * (A - q1) := mul_le_mul_of_nonneg_left hA_err.1 hwQ.le
      _ = (w : ℚ) * A - (w : ℚ) * q1 := by ring
  have hq2_le : q2 ≤ 2 * x := by
    have hxx : x / 2 ^ 53 ≤ x := div_le_self hx_pos.le (by norm_num)
    linarith
  have hq2E : q2 / 2 ^ 53 ≤ 2 * x / 2 ^ 53 :=
    div_le_div_of_nonneg_right hq2_le (by positivity)
  have hVx_hi : V - x ≤ 3 * (x / 2 ^ 53) := by
    have h1 := hV_err.2
    have h2 : 2 * x / 2 ^ 53 = 2 * (x / 2 ^ 53) := by ring
    linarith
  have hVx_lo : -(3 * (x / 2 ^ 53)) ≤ V - x := by
    have h1 := hV_err.1
    have h2 : 2 * x / 2 ^ 53 = 2 * (x / 2 ^ 53) := by ring
    linarith
  have hE_small : 3 * (x / 2 ^ 53) * W < 1 := by
    have hxE : 3 * (x / 2 ^ 53) * W = 3 * ((w : ℚ) * H) / 2 ^ 53 := by
      rw [hx_def]
      field_simp
      ring
    rw [hxE, div_lt_one (by positivity)]
    have hwH : (w : ℚ) * H ≤ 2000 * 2 ^ 31 := by
      have h1 : w * H ≤ 2000 * 2 ^ 31 := Nat.mul_le_mul hw2 hHb
      exact_mod_cast h1
    calc 3 * ((w : ℚ) * H) ≤ 3 * (2000 * 2 ^ 31) := by linarith
      _ < 2 ^ 53 := by norm_num
  have hdm := Nat.div_add_mod (w * H) W
  set n : ℕ := w * H / W with hn_def
  set r : ℕ := w * H % W with hr_def
  have hr_lt : r < W := Nat.mod_lt _ (by omega)
  have hx_split : x = (n : ℚ) + (r : ℚ) / W := by
    have hcast : (W : ℚ) * n + r = (w : ℚ) * H := by exact_mod_cast hdm
    rw [hx_def, ← hcast]
    field_simp
    ring
  have hfloor_x : ⌊x⌋ = (n : ℤ) := by
    rw [Int.floor_eq_iff]
    constructor
    · rw [hx_split]
      push_cast
      have : (0 : ℚ) ≤ (r : ℚ) / W := by positivity
      linarith
    · rw [hx_split]
      push_cast
      have : (r : ℚ) / W < 1 := by
        rw [div_lt_one hWQ]
        exact_mod_cast hr_lt
      linarith
  have hvn0 : 0 ≤ ⌊V⌋ := Int.floor_nonneg.mpr hV_pos.le
  have hcastZ : (newHeight w W H : ℤ) = ⌊V⌋ := by
    rw [hnh]
    exact Int.toNat_of_nonneg hvn0
  have hcastQ : (newHeight w W H : ℚ) = (⌊V⌋ : ℚ) := by exact_mod_cast hcastZ
  by_cases hr0 : r = 0
  · have hx_int : x = (n : ℚ) := by rw [hx_split, hr0]; simp
    have h3E1 : 3 * (x / 2 ^ 53) < 1 := by
      have h1 : (1 : ℚ) ≤ W := by exact_mod_cast hW
      nlinarith [hx_pos, hE_small]
    have hub : ⌊V⌋ ≤ (n : ℤ) := by
      have hVlt : V < (n : ℚ) + 1 := by
        have h1 := hVx_hi
        rw [hx_int] at h1
        linarith
      have h2 : ⌊V⌋ < (n : ℤ) + 1 := Int.floor_lt.mpr (by push_cast; linarith)
      omega
    have hlb : (n : ℤ) - 1 ≤ ⌊V⌋ := by
      apply Int.le_floor.mpr
      push_cast
      have h1 := hVx_lo
      rw [hx_int] at h1
      linarith
    constructor
    · rw [hcastQ, hx_int, abs_le]
      have hlbQ : (n : ℚ) - 1 ≤ (⌊V⌋ : ℚ) := by exact_mod_cast hlb
      have hubQ : (⌊V⌋ : ℚ) ≤ (n : ℚ) := by exact_mod_cast hub
      constructor <;> linarith
    · rw [hcastZ, hfloor_x]
      have : ⌊V⌋ = (n : ℤ) ∨ ⌊V⌋ = (n : ℤ) - 1 := by omega
      rcases this with h | h
      · exact Or.inl h
      · exact Or.inr ⟨hr0, h⟩
  · have hr1 : (1 : ℚ) ≤ (r : ℚ) := by
      exact_mod_cast Nat.one_le_iff_ne_zero.mpr hr0
    have hfrac_lo : 1 / (W : ℚ) ≤ (r : ℚ) / W :=
      div_le_div_of_nonneg_right hr1 hWQ.le
    have h3E_ltfrac : 3 * (x / 2 ^ 53) < 1 / (W : ℚ) := by
      rw [lt_div_iff hWQ]
      exact hE_small
    have hlb : (n : ℤ) ≤ ⌊V⌋ := by
      apply Int.le_floor.mpr
      push_cast
      have h1 := hVx_lo
      rw [hx_split] at h1
      linarith
    have hfrac_hi : (r : ℚ) / W ≤ 1 - 1 / (W : ℚ) := by
      have hr2 : (r : ℚ) + 1 ≤ W := by exact_mod_cast hr_lt
      rw [div_le_iff hWQ]
      have hexp : (1 - 1 / (W : ℚ)) * W = W - 1 := by field_simp
      rw [hexp]
      linarith
    have hub : ⌊V⌋ ≤ (n : ℤ) := by
      have hVlt : V < (n : ℚ) + 1 := by
        have h1 := hVx_hi
        rw [hx_split] at h1
        linarith
      have h2 : ⌊V⌋ < (n : ℤ) + 1 := Int.floor_lt.mpr (by push_cast; linarith)
      omega
    have heq : ⌊V⌋ = (n : ℤ) := le_antisymm hub hlb
    constructor
    · rw [hcastQ, heq, hx_split, abs_le]
      push_cast
      have hfrac_pos : (0 : ℚ) ≤ (r : ℚ) / W := by positivity
      have hfrac_lt1 : (r : ℚ) / W < 1 := by
        rw [div_lt_one hWQ]
        exact_mod_cast hr_lt
      constructor <;> linarith
    · rw [hcastZ, hfloor_x]
      exact Or.inl heq

set_option maxRecDepth 100000 in
theorem newHeight_truncates_not_rounds :
    newHeight 100 3 2 = 66
    ∧ round ((100 : ℚ) * 2 / 3) = 67
    ∧ (66 : ℤ) ≠ 67 := by
  refine ⟨by with_unfolding_all rfl, ?_, by decide⟩
  rw [round_eq, show (100 : ℚ) * 2 / 3 + 1 / 2 = 403 / 6 by norm_num,
    Int.floor_eq_iff]
  norm_num

set_option maxRecDepth 100000 in
theorem newHeight_float_within_one_witness :
    (|(newHeight 100 3 2 : ℚ) - (100 : ℚ) * 2 / 3| ≤ 1
      ∧ ((newHeight 100 3 2 : ℤ) = ⌊(100 : ℚ) * 2 / 3⌋
        ∨ ((100 * 2) % 3 = 0 ∧ (newHeight 100 3 2 : ℤ) = ⌊(100 : ℚ) * 2 / 3⌋ - 1)))
    ∧ newHeight 100 3 2 = 66
    ∧ newHeight 100 100 29 = 28 := by
  have h := newHeight_float_within_one 100 3 2 (by norm_num) (by norm_num)
    (by norm_num) (by norm_num) (by norm_num) (by norm_num)
  refine ⟨?_, by with_unfolding_all rfl, by with_unfolding_all rfl⟩
  exact_mod_cast h

/-! ### Claim C4: normalization to opaque RGB -/

theorem mulDiv255_zero (v : ℕ) : mulDiv255 v 0 = 0 := by
  simp [mulDiv255]

theorem mulDiv255_self_full : mulDiv255 255 255 = 255 := rfl

/-- `MULDIV255(c, 255) = c` for every byte value `c`. -/
theorem mulDiv255_full (c : ℕ) (hc : c ≤ 255) : mulDiv255 c 255 = c := by
  unfold mulDiv255
  omega

theorem blendOverWhite_zero (c : ℕ) : blendOverWhite c 0 = 255 := by
  show mulDiv255 255 (255 - 0) + mulDiv255 c 0 = 255
  rw [Nat.sub_zero, mulDiv255_self_full, mulDiv255_zero]

theorem blendOverWhite_full (c : ℕ) (hc : c ≤ 255) : blendOverWhite c 255 = c := by
  show mulDiv255 255 (255 - 255) + mulDiv255 c 255 = c
  rw [Nat.sub_self, mulDiv255_zero, mulDiv255_full c hc]
  simp

theorem pasteOnWhite_rgba (p : Pix) :
    pasteOnWhite .RGBA p
      = ⟨blendOverWhite p.r p.a, blendOverWhite p.g p.a,
          blendOverWhite p.b p.a, 255⟩ := rfl

theorem pasteOnWhite_la (p : Pix) :
    pasteOnWhite .LA p
      = ⟨blendOverWhite p.r p.a, blendOverWhite p.r p.a,
          blendOverWhite p.r p.a, 255⟩ := rfl

theorem normalizeImage_px_rgba (img : PilImage) (h : img.mode = .RGBA) (x y : ℕ) :
    (normalizeImage img).px x y = pasteOnWhite .RGBA (img.px x y) := by
  simp [normalizeImage, h]

theorem normalizeImage_px_la (img : PilImage) (h : img.mode = .LA) (x y : ℕ) :
    (normalizeImage img).px x y = pasteOnWhite .LA (img.px x y) := by
  simp [normalizeImage, h]

theorem normalizeImage_px_p (img : PilImage) (h : img.mode = .P) (x y : ℕ) :
    (normalizeImage img).px x y
      = pasteOnWhite .RGBA (img.palette ((img.px x y).r)) := by
  simp [normalizeImage, h, convertPToRGBA]

theorem normalizeImage_px_l (img : PilImage) (h : img.mode = .L) (x y : ℕ) :
    (normalizeImage img).px x y
      = ⟨(img.px x y).r, (img.px x y).r, (img.px x y).r, 255⟩ := by
  simp [normalizeImage, h, convertToRGB]

theorem normalizeImage_rgb_id (img : PilImage) (h : img.mode = .RGB) :
    normalizeImage img = img := by
  simp [normalizeImage, h]

/-- **C4.** Normalization always yields an opaque RGB image of identical
dimensions.  For the masked modes the pixels are composited over opaque
white: a fully transparent pixel becomes pure white (255, 255, 255) and a
fully opaque pixel keeps its color (palette color for mode P, replicated
luminance for LA); grayscale is converted to RGB by replication; and —
given PIL's invariant that an RGB raster carries 255 in its filler band —
no pixel of the output is transparent. -/
theorem normalizeImage_opaque_rgb (img : PilImage) :
    (normalizeImage img).mode = .RGB
    ∧ (normalizeImage img).width = img.width
    ∧ (normalizeImage img).height = img.height
    ∧ (img.mode = .RGBA → ∀ x y,
        ((img.px x y).a = 0 →
          (normalizeImage img).px x y = ⟨255, 255, 255, 255⟩)
        ∧ ((img.px x y).a = 255 → (img.px x y).r ≤ 255 → (img.px x y).g ≤ 255 →
            (img.px x y).b ≤ 255 →
            (normalizeImage img).px x y
              = ⟨(img.px x y).r, (img.px x y).g, (img.px x y).b, 255⟩))
    ∧ (img.mode = .LA → ∀ x y,
        ((img.px x y).a = 0 →
          (normalizeImage img).px x y = ⟨255, 255, 255, 255⟩)
        ∧ ((img.px x y).a = 255 → (img.px x y).r ≤ 255 →
            (normalizeImage img).px x y
              = ⟨(img.px x y).r, (img.px x y).r, (img.px x y).r, 255⟩))
    ∧ (img.mode = .P → ∀ x y,
        ((img.palette ((img.px x y).r)).a = 0 →
          (normalizeImage img).px x y = ⟨255, 255, 255, 255⟩)
        ∧ ((img.palette ((img.px x y).r)).a = 255 →
            (img.palette ((img.px x y).r)).r ≤ 255 →
            (img.palette ((img.px x y).r)).g ≤ 255 →
            (img.palette ((img.px x y).r)).b ≤ 255 →
            (normalizeImage img).px x y
              = ⟨(img.palette ((img.px x y).r)).r, (img.palette ((img.px x y).r)).g,
                  (img.palette ((img.px x y).r)).b, 255⟩))
    ∧ (img.mode = .L → ∀ x y,
        (normalizeImage img).px x y
          = ⟨(img.px x y).r, (img.px x y).r, (img.px x y).r, 255⟩)
    ∧ ((∀ x y, img.mode = .RGB → (img.px x y).a = 255) →
        ∀ x y, ((normalizeImage img).px x y).a = 255) := by
  refine ⟨?_, ?_, ?_, ?_, ?_, ?_, ?_, ?_⟩
  · cases himg : img.mode <;>
      simp [normalizeImage, himg, convertToRGB, convertPToRGBA]
  · cases himg : img.mode <;>
      simp [normalizeImage, himg, convertToRGB, convertPToRGBA]
  · cases himg : img.mode <;>
      simp [normalizeImage, himg, convertToRGB, convertPToRGBA]
  · intro h x y
    rw [normalizeImage_px_rgba img h x y, pasteOnWhite_rgba]
    constructor
    · intro ha
      rw [ha, blendOverWhite_zero, blendOverWhite_zero, blendOverWhite_zero]
    · intro ha hr hg hb
      rw [ha, blendOverWhite_full _ hr, blendOverWhite_full _ hg,
        blendOverWhite_full _ hb]
  · intro h x y
    rw [normalizeImage_px_la img h x y, pasteOnWhite_la]
    constructor
    · intro ha
      rw [ha, blendOverWhite_zero]
    · intro ha hr
      rw [ha, blendOverWhite_full _ hr]
  · intro h x y
    rw [normalizeImage_px_p img h x y, pasteOnWhite_rgba]
    constructor
    · intro ha
      rw [ha, blendOverWhite_zero, blendOverWhite_zero, blendOverWhite_zero]
    · intro ha hr hg hb
      rw [ha, blendOverWhite_full _ hr, blendOverWhite_full _ hg,
        blendOverWhite_full _ hb]
  · intro h x y
    exact normalizeImage_px_l img h x y
  · intro hrgb x y
    cases himg : img.mode with
    | RGB =>
      rw [normalizeImage_rgb_id img himg]
      exact hrgb x y himg
    | RGBA => rw [normalizeImage_px_rgba img himg x y, pasteOnWhite_rgba]
    | LA => rw [normalizeImage_px_la img himg x y, pasteOnWhite_la]
    | P => rw [normalizeImage_px_p img himg x y, pasteOnWhite_rgba]
    | L => rw [normalizeImage_px_l img himg x y]

/-- Witness for C4 at concrete 1×1 RGBA images: a fully transparent pixel
becomes pure white, a fully opaque pixel keeps its color, and the outputs are
RGB. -/
theorem normalizeImage_opaque_rgb_witness :
    (normalizeImage ⟨1, 1, .RGBA, fun _ _ => ⟨7, 8, 9, 0⟩,
        fun _ => ⟨0, 0, 0, 255⟩⟩).mode = .RGB
    ∧ (normalizeImage ⟨1, 1, .RGBA, fun _ _ => ⟨7, 8, 9, 0⟩,
        fun _ => ⟨0, 0, 0, 255⟩⟩).px 0 0 = ⟨255, 255, 255, 255⟩
    ∧ (normalizeImage ⟨1, 1, .RGBA, fun _ _ => ⟨7, 8, 9, 255⟩,
        fun _ => ⟨0, 0, 0, 255⟩⟩).px 0 0 = ⟨7, 8, 9, 255⟩ := by
  have h1 := normalizeImage_opaque_rgb
    ⟨1, 1, .RGBA, fun _ _ => ⟨7, 8, 9, 0⟩, fun _ => ⟨0, 0, 0, 255⟩⟩
  have h2 := normalizeImage_opaque_rgb
    ⟨1, 1, .RGBA, fun _ _ => ⟨7, 8, 9, 255⟩, fun _ => ⟨0, 0, 0, 255⟩⟩
  exact ⟨h1.1, (h1.2.2.2.1 rfl 0 0).1 rfl,
    (h2.2.2.2.1 rfl 0 0).2 rfl (by decide) (by decide) (by decide)⟩
